import Mathlib

/-!
Verification of the command-dispatch and routing layer of the tiny IRC
client (crates/tiny/src/cmd.rs) and its tab-bar renderer
(crates/libtiny_tui/src/tab.rs).

Rust strings are embedded as `List Char`; byte indices (relevant to the
UTF-8 slicing in `split_msg_args`) are computed with `Char.utf8Size`.
A slice operation that would panic in Rust (index not on a character
boundary) is modelled as `Option.none`, and a handler that can panic
returns `Except Unit`, with `.error ()` standing for the panic.
The UI and the network client are collaborators owned by other crates;
calls into them are recorded as an ordered list of `Effect`s, and the
mutable `Vec<Client>` connection set is threaded explicitly.
-/

namespace Tiny

/-! ## Character classes and UTF-8 byte arithmetic -/

/-- Rust's `char::is_whitespace`: the Unicode `White_Space` property. -/
def rustIsWhitespace (c : Char) : Bool :=
  let n := c.toNat
  (9 ≤ n && n ≤ 13) || n == 0x20 || n == 0x85 || n == 0xA0 || n == 0x1680 ||
    (0x2000 ≤ n && n ≤ 0x200A) || n == 0x2028 || n == 0x2029 || n == 0x202F ||
    n == 0x205F || n == 0x3000

/-- Modelled from the spec: `utils::is_nick_first_char` lives in
`crates/tiny/src/utils.rs`, which is not among the presented sources.  The
spec requires the first character of a `/msg` target to be "a character
valid as a nick's first character (not a channel-prefix character)": per
RFC 2812 that is a letter or one of the special characters
left bracket, backslash, right bracket, caret, underscore, backquote,
left brace, pipe, right brace (code points 91-96 and 123-125), which
excludes the channel prefixes such as the hash sign. -/
def is_nick_first_char (c : Char) : Bool :=
  c.isAlpha || c.toNat ∈ [91, 92, 93, 94, 95, 96, 123, 124, 125]

/-- Total UTF-8 byte length of a string. -/
def utf8Len (s : List Char) : Nat :=
  (s.map Char.utf8Size).sum

/-- Rust's `str::char_indices`, starting from byte offset `i`:
each character paired with its byte index. -/
def charIndicesFrom (i : Nat) : List Char → List (Nat × Char)
  | [] => []
  | c :: cs => (i, c) :: charIndicesFrom (i + c.utf8Size) cs

/-- Rust slice `&s[0..i]` (byte index): `none` when `i` is not on a
character boundary (in Rust, a panic). -/
def sliceToByte (cs : List Char) (i : Nat) : Option (List Char) :=
  if i = 0 then some []
  else
    match cs with
    | [] => none
    | c :: cs2 =>
      if c.utf8Size ≤ i then (sliceToByte cs2 (i - c.utf8Size)).map (fun l => c :: l)
      else none

/-- Rust slice `&s[i..]` (byte index): `none` when `i` is not on a
character boundary (in Rust, a panic). -/
def sliceFromByte (cs : List Char) (i : Nat) : Option (List Char) :=
  if i = 0 then some cs
  else
    match cs with
    | [] => none
    | c :: cs2 =>
      if c.utf8Size ≤ i then sliceFromByte cs2 (i - c.utf8Size)
      else none

/-- Rust's `str::split_whitespace`: the whitespace-delimited tokens. -/
def split_whitespace (s : List Char) : List (List Char) :=
  match s with
  | [] => []
  | c :: cs =>
    if rustIsWhitespace c then split_whitespace cs
    else
      match split_whitespace cs with
      | [] => [[c]]
      | t :: ts =>
        match cs with
        | [] => [[c]]
        | c2 :: _ =>
          if rustIsWhitespace c2 then [c] :: t :: ts else (c :: t) :: ts

/-- Worker for `split_whitespace_indices`: `i` is the index of the head of
the remaining input, `afterWs` records whether the previous character was
whitespace (or the start of the string). -/
def swi_aux : Nat → Bool → List Char → List Nat
  | _, _, [] => []
  | i, afterWs, c :: cs =>
    if rustIsWhitespace c then swi_aux (i + 1) true cs
    else if afterWs then i :: swi_aux (i + 1) false cs
    else swi_aux (i + 1) false cs

/-- Modelled from the spec: `utils::split_whitespace_indices` lives in
`crates/tiny/src/utils.rs`, which is not among the presented sources.
Per the spec's parser algorithm ("Scan the original string for
whitespace-index boundaries; the tail is everything after the first
whitespace run that follows the name"), it yields the start index of each
whitespace-delimited token of the string, in order.  Indices here count
characters; the Rust original counts bytes, but `parse_cmd` only ever
slices the original string at these indices, which denote the same
positions either way. -/
def split_whitespace_indices (s : List Char) : List Nat :=
  swi_aux 0 true s

/-! ## Data model: message sources, targets, connections, effects -/

/-- Type `libtiny_common::MsgSource` (a collaborator crate): the typed origin
of a command, and also a routing target — a server, a channel on a
server, or a user on a server. -/
inductive MsgSource
  | Serv (serv : List Char)
  | Chan (serv : List Char) (chan : List Char)
  | User (serv : List Char) (nick : List Char)
deriving DecidableEq

/-- Accessor `MsgSource::serv_name`: the server name of any source. -/
def MsgSource.serv_name : MsgSource → List Char
  | .Serv serv => serv
  | .Chan serv _ => serv
  | .User serv _ => serv

/-- Type `libtiny_common::MsgTarget` (the subset used by cmd.rs). -/
inductive MsgTarget
  | CurrentTab
  | Server (serv : List Char)
  | AllServTabs (serv : List Char)
  | Chan (serv : List Char) (chan : List Char)
deriving DecidableEq

/-- The settings bundle passed to `Client::new` (`libtiny_client::ServerInfo`,
restricted to the fields `connect_` fills; `nickserv_ident` and
`sasl_auth` are always `None` there and are omitted). -/
structure ServerInfo where
  addr : List Char
  port : Nat
  tls : Bool
  realname : List Char
  pass : Option (List Char)
  nicks : List (List Char)
  auto_join : List (List Char)
deriving DecidableEq

/-- One live connection handle (`libtiny_client::Client`), as observable
from cmd.rs: its server name (`get_serv_name`) and, for `/names`, the
member lists it reports per channel (`get_chan_nicks`). -/
structure Client where
  serv_name : List Char
  chan_nicks : List (List Char × List (List Char))
deriving DecidableEq

/-- Accessor `Client::get_chan_nicks`: members of a channel (empty when unknown). -/
def Client.get_chan_nicks (c : Client) (chan : List Char) : List (List Char) :=
  match c.chan_nicks.find? (fun p => p.1 == chan) with
  | none => []
  | some p => p.2

/-- Record `config::Defaults`: default connection settings used by `/connect`. -/
structure Defaults where
  tls : Bool
  realname : List Char
  nicks : List (List Char)
  join : List (List Char)
deriving DecidableEq

/-- One observable call into a collaborator (the UI handle or a
connection handle).  Connection-handle calls are tagged with the server
name of the client they are invoked on. -/
inductive Effect
  | addClientErrMsg (msg : List Char) (target : MsgTarget)
  | addClientMsg (msg : List Char) (target : MsgTarget)
  | closeServerTab (serv : List Char)
  | closeChanTab (serv : List Char) (chan : List Char)
  | closeUserTab (serv : List Char) (nick : List Char)
  | newServerTab (serv : List Char)
  | clientQuit (serv : List Char) (reason : Option (List Char))
  | clientPart (serv : List Char) (chan : List Char) (reason : Option (List Char))
  | clientReconnect (serv : List Char) (port : Option Nat)
  | clientAway (serv : List Char) (msg : Option (List Char))
  | clientNick (serv : List Char) (nick : List Char)
  | newClient (info : ServerInfo)
  | spawnConnTask (serv : List Char)
  | sendMsg (src : MsgSource) (msg : List Char) (is_action : Bool)
deriving DecidableEq

/-- Result of one command handler: the ordered collaborator calls it made
and the connection set it leaves behind; `.error ()` is a Rust panic. -/
abbrev CmdOut := Except Unit (List Effect × List Client)

/-! ## Command registry -/

/-- A command descriptor (cmd.rs `struct Cmd`).  The `cmd_fn` function
pointer of the original is not stored here; `run_cmd` instead receives
the dispatch function as an explicit argument. -/
structure Cmd where
  name : List Char
  description : List Char
  usage : List Char
deriving DecidableEq

def AWAY_CMD : Cmd :=
  { name := "away".data
    description := "Sets/removes away message".data
    usage := "`/away` or `/away <message>`".data }

def CLOSE_CMD : Cmd :=
  { name := "close".data
    description := "Closes current tab".data
    usage := "`/close` or `/close <reason>`".data }

def CONNECT_CMD : Cmd :=
  { name := "connect".data
    description := "Connects to a server".data
    usage := "`/connect <host>:<port>` or `/connect` to reconnect".data }

def JOIN_CMD : Cmd :=
  { name := "join".data
    description := "Joins a channel".data
    usage := "`/join <chan1> [-ignore] [-notify [off|mentions|messages]],<chan2>...` or `/join` in a channel tab to rejoin".data }

def ME_CMD : Cmd :=
  { name := "me".data
    description := "Sends emote message".data
    usage := "`/me <message>`".data }

def MSG_CMD : Cmd :=
  { name := "msg".data
    description := "Sends a message to a user".data
    usage := "`/msg <nick> <message>`".data }

def NAMES_CMD : Cmd :=
  { name := "names".data
    description := "Shows users in channel".data
    usage := "`/names`".data }

def NICK_CMD : Cmd :=
  { name := "nick".data
    description := "Sets your nick".data
    usage := "`/nick <nick>`".data }

def HELP_CMD : Cmd :=
  { name := "help".data
    description := "Displays this message".data
    usage := "`/help`".data }

/-- The registry `static CMDS`, in registration order. -/
def CMDS : List Cmd :=
  [AWAY_CMD, CLOSE_CMD, CONNECT_CMD, JOIN_CMD, ME_CMD, MSG_CMD, NAMES_CMD,
   NICK_CMD, HELP_CMD]

/-! ## Command parser and router -/

/-- Slice a string at the first index of an index list (empty when the
list is empty): the `match ws_idxs.next()` step of `parse_cmd`. -/
def drop_at_head (xs : List Char) : List Nat → List Char
  | [] => []
  | i :: _ => xs.drop i

/-- The tail computation of `parse_cmd`: discard the first
whitespace-index boundary (the command name's start) and slice the
original string at the second, if any. -/
def parse_cmd_rest (cmd : List Char) : List Char :=
  drop_at_head cmd ((split_whitespace_indices cmd).drop 1)

/-- Parser `parse_cmd`: first whitespace-delimited token is the candidate name;
the tail starts at the second whitespace-index boundary of the original
string (empty when there is none); the name is looked up in `CMDS`,
first match wins.  Returns `none` when there is no token at all or the
name is not registered. -/
def parse_cmd (cmd : List Char) : Option (Cmd × List Char) :=
  match split_whitespace cmd with
  | [] => none
  | cmd_name :: _ =>
    (CMDS.find? (fun c => c.name == cmd_name)).map
      (fun c => (c, parse_cmd_rest cmd))

/-- The router (source name: run underscore cmd; that exact identifier is
a Lean command keyword, hence the camel-case spelling here): parse the
line and dispatch to the matched command's handler (the source's
function-pointer call `(cmd.cmd_fn)(cmd_args)` is embedded as the
explicit `dispatch` argument); on `None`, report
`Unsupported command: "/<line>"` to the current tab. -/
def runCmd (dispatch : Cmd → List Char → Defaults → MsgSource → List Client → CmdOut)
    (cmd : List Char) (defaults : Defaults) (src : MsgSource)
    (clients : List Client) : CmdOut :=
  match parse_cmd cmd with
  | some (c, args) => dispatch c args defaults src clients
  | none =>
    .ok ([.addClientErrMsg ("Unsupported command: \"/".data ++ cmd ++ "\"".data)
            .CurrentTab], clients)

/-! ## Connection lookup -/

/-- Helper `find_client_idx`: index of the first client whose server name
matches. -/
def find_client_idx : List Client → List Char → Option Nat
  | [], _ => none
  | c :: cs, serv =>
    if c.serv_name = serv then some 0
    else (find_client_idx cs serv).map (fun i => i + 1)

/-- Helper `find_client`: the first client whose server name matches (the
original returns `&mut clients[idx]` for the found index). -/
def find_client (clients : List Client) (serv : List Char) : Option Client :=
  match find_client_idx clients serv with
  | none => none
  | some idx => clients.get? idx

/-! ## Handlers -/

/-- Handler `away`: set or clear away status on the connection matching the
source's server; silently no-op when there is none. -/
def away (args : List Char) (src : MsgSource) (clients : List Client) : CmdOut :=
  let m := if args.isEmpty then none else some args
  match find_client clients src.serv_name with
  | some client => .ok ([.clientAway client.serv_name m], clients)
  | none => .ok ([], clients)

/-- Handler `close`: behaviour depends on the source kind.  The `unwrap()` on
`find_client_idx` for Server/Channel sources is the `.error ()` case. -/
def close (args : List Char) (src : MsgSource) (clients : List Client) : CmdOut :=
  match src with
  | .Serv serv =>
    if serv = "mentions".data then
      .ok ([], clients)
    else
      match find_client_idx clients serv with
      | none => .error ()
      | some client_idx =>
        let reason := if args.isEmpty then none else some args
        .ok ([.closeServerTab serv, .clientQuit serv reason],
             clients.eraseIdx client_idx)
  | .Chan serv chan =>
    match find_client_idx clients serv with
    | none => .error ()
    | some _ =>
      let reason := if args.isEmpty then none else some args
      .ok ([.closeChanTab serv chan, .clientPart serv chan reason], clients)
  | .User serv nick =>
    .ok ([.closeUserTab serv nick], clients)

/-- Handler `reconnect` (the zero-argument form of `/connect`). -/
def reconnect (src : MsgSource) (clients : List Client) : CmdOut :=
  match find_client clients src.serv_name with
  | some client =>
    .ok ([.addClientMsg "Reconnecting...".data (.AllServTabs src.serv_name),
          .clientReconnect client.serv_name none], clients)
  | none => .ok ([], clients)

/-- Helper `split_port` (local to `connect_`): split at the first colon. -/
def split_port (s : List Char) : Option (List Char × List Char) :=
  match s.findIdx? (fun c => c == ':') with
  | none => none
  | some i => some (s.take i, s.drop (i + 1))

/-- Rust's `str::parse::<u16>()`: an optional leading plus sign, then
decimal digits; errors carry the `ParseIntError` display text. -/
def parse_u16_loop : List Char → Nat → Except (List Char) Nat
  | [], acc => .ok acc
  | c :: cs, acc =>
    if c.isDigit then
      let acc2 := acc * 10 + (c.toNat - 48)
      if 65535 < acc2 then .error "number too large to fit in target type".data
      else parse_u16_loop cs acc2
    else .error "invalid digit found in string".data

/-- Rust's `str::parse::<u16>()`, entry point. -/
def parse_u16 (s : List Char) : Except (List Char) Nat :=
  match s with
  | [] => .error "cannot parse integer from empty string".data
  | c :: cs =>
    if c = '+' then
      match cs with
      | [] => .error "invalid digit found in string".data
      | _ => parse_u16_loop cs 0
    else parse_u16_loop (c :: cs) 0

/-- The apostrophe character, kept out of string literals. -/
def apos : Char := Char.ofNat 39

/-- The error message `connect: Can't parse port <port>: <err>`. -/
def cant_parse_port_msg (serv_port err : List Char) : List Char :=
  "connect: Can".data ++ [apos] ++ "t parse port ".data ++ serv_port ++
    ": ".data ++ err

/-- Handler `connect_`: connect to `<host>:<port>`.  When a connection for the
host already exists, reconnect it on the new port; otherwise open a
server tab, build a `Client` from the defaults, spawn the event-pump
task and push the new client. -/
def connect_ (serv_addr : List Char) (pass : Option (List Char))
    (defaults : Defaults) (clients : List Client) : CmdOut :=
  match split_port serv_addr with
  | none =>
    .ok ([.addClientErrMsg "connect: Need a <host>:<port>".data .CurrentTab],
         clients)
  | some (serv_name, serv_port_str) =>
    match parse_u16 serv_port_str with
    | .error err =>
      .ok ([.addClientErrMsg (cant_parse_port_msg serv_port_str err)
              .CurrentTab], clients)
    | .ok serv_port =>
      match find_client clients serv_name with
      | some client =>
        .ok ([.addClientMsg "Connecting...".data (.AllServTabs serv_name),
              .clientReconnect client.serv_name (some serv_port)], clients)
      | none =>
        let info : ServerInfo :=
          { addr := serv_name
            port := serv_port
            tls := defaults.tls
            realname := defaults.realname
            pass := pass
            nicks := defaults.nicks
            auto_join := defaults.join }
        .ok ([.newServerTab serv_name,
              .addClientMsg "Connecting...".data (.Server serv_name),
              .newClient info,
              .spawnConnTask serv_name],
             clients ++ [{ serv_name := serv_name, chan_nicks := [] }])

/-- Handler `connect`: dispatch on the number of whitespace-delimited words. -/
def connect (args : List Char) (defaults : Defaults) (src : MsgSource)
    (clients : List Client) : CmdOut :=
  match split_whitespace args with
  | [] => reconnect src clients
  | [w] => connect_ w none defaults clients
  | [w1, w2] => connect_ w1 (some w2) defaults clients
  | _ =>
    .ok ([.addClientErrMsg ("Usage: ".data ++ CONNECT_CMD.usage) .CurrentTab],
         clients)

/-- The loop of `split_msg_args` over the remaining `char_indices`:
at the first whitespace character (byte index `i`) the argument string is
sliced as `&args[0..i]` and `&args[i + 1..]`; a slice off a character
boundary is the panic case `.error ()`. -/
def split_msg_args_loop (args : List Char) :
    List (Nat × Char) → Except Unit (Option (List Char × List Char))
  | [] => .ok none
  | (i, c) :: rest =>
    if rustIsWhitespace c then
      match sliceToByte args i, sliceFromByte args (i + 1) with
      | some a, some b => .ok (some (a, b))
      | _, _ => .error ()
    else split_msg_args_loop args rest

/-- Splitter `split_msg_args`: reject an empty string or a first character that is
not a valid nick first character; otherwise split at the first whitespace
character. -/
def split_msg_args (args : List Char) :
    Except Unit (Option (List Char × List Char)) :=
  match charIndicesFrom 0 args with
  | [] => .ok none
  | (_, c) :: rest =>
    if is_nick_first_char c then split_msg_args_loop args rest
    else .ok none

/-- Handler `msg`: split the arguments into target and message; on failure or an
empty message report `/msg`'s usage; otherwise route to a Server source
when the target names an existing connection, else to a User source on
the current source's server (`crate::ui::send_msg` is the `sendMsg`
effect). -/
def msg (args : List Char) (src : MsgSource) (clients : List Client) : CmdOut :=
  let fail : List Effect :=
    [.addClientErrMsg ("Usage: ".data ++ MSG_CMD.usage) .CurrentTab]
  match split_msg_args args with
  | .error () => .error ()
  | .ok none => .ok (fail, clients)
  | .ok (some (target, m)) =>
    if m.isEmpty then .ok (fail, clients)
    else
      let src2 :=
        if clients.any (fun client => client.serv_name == target) then
          MsgSource.Serv target
        else
          MsgSource.User src.serv_name target
      .ok ([.sendMsg src2 m false], clients)

/-- Rust `Vec::join(", ")`. -/
def join_comma : List (List Char) → List Char
  | [] => []
  | [x] => x
  | x :: xs => x ++ ", ".data ++ join_comma xs

/-- Handler `names`: look the connection up first; silently return when there is
none.  Only then check the source kind: a Channel lists or queries the
member list, anything else is the explicit error. -/
def names (args : List Char) (src : MsgSource) (clients : List Client) : CmdOut :=
  let words := split_whitespace args
  match find_client clients src.serv_name with
  | none => .ok ([], clients)
  | some client =>
    match src with
    | .Chan serv chan =>
      let nicks_vec := client.get_chan_nicks chan
      let target := MsgTarget.Chan serv chan
      match words with
      | [] =>
        .ok ([.addClientMsg
                ((Nat.repr nicks_vec.length).data ++ " users: ".data ++
                  join_comma nicks_vec) target], clients)
      | nick :: _ =>
        if nicks_vec.any (fun v => v == nick) then
          .ok ([.addClientMsg (nick ++ " is online".data) target], clients)
        else
          .ok ([.addClientMsg (nick ++ " is not in the channel".data) target],
               clients)
    | _ =>
      .ok ([.addClientErrMsg "/names only supported in chan tabs".data
              .CurrentTab], clients)

/-- Handler `nick`: exactly one word sets the nick on the matching connection
(silent no-op when there is none); any other word count is a usage
error. -/
def nick (args : List Char) (src : MsgSource) (clients : List Client) : CmdOut :=
  match split_whitespace args with
  | [new_nick] =>
    match find_client clients src.serv_name with
    | some client => .ok ([.clientNick client.serv_name new_nick], clients)
    | none => .ok ([], clients)
  | _ =>
    .ok ([.addClientErrMsg ("Usage: ".data ++ NICK_CMD.usage) .CurrentTab],
         clients)

/-! ## Tab bar renderer (crates/libtiny_tui/src/tab.rs) -/

/-- Type `libtiny_common::TabStyle`. -/
inductive TabStyle
  | Normal
  | JoinOrPart
  | NewMsg
  | Highlight
deriving DecidableEq

/-- A termbox fg/bg attribute pair (`config::Style`). -/
structure Style where
  fg : Nat
  bg : Nat
deriving DecidableEq

/-- The tab-related entries of `config::Colors`. -/
structure Colors where
  tab_active : Style
  tab_normal : Style
  tab_joinpart : Style
  tab_new_msg : Style
  tab_highlight : Style
deriving DecidableEq

/-- Constant `termbox_simple::TB_UNDERLINE`, the underline attribute bit. -/
def TB_UNDERLINE : Nat := 512

/-- Mapping `tab_style`: resolve an inactive tab's stored style to a color pair. -/
def tab_style (style : TabStyle) (colors : Colors) : Style :=
  match style with
  | .Normal => colors.tab_normal
  | .JoinOrPart => colors.tab_joinpart
  | .NewMsg => colors.tab_new_msg
  | .Highlight => colors.tab_highlight

/-- One `termbox` cell written by `tb.change_cell`. -/
structure Cell where
  x : Int
  y : Int
  ch : Char
  fg : Nat
  bg : Nat
deriving DecidableEq

/-- A tab descriptor (`struct Tab`; the opaque `widget` field is
omitted). -/
structure Tab where
  visible_name : List Char
  src : MsgSource
  style : TabStyle
  switch : Option Char
deriving DecidableEq

/-- Modelled from the spec: the rendered column width of one character —
the `unicode_width` crate backing `Tab::width` is an external
collaborator.  East Asian wide/fullwidth ranges occupy two columns,
everything else one. -/
def char_width (c : Char) : Nat :=
  let n := c.toNat
  if 0x1100 ≤ n && n ≤ 0x115F then 2
  else if 0x2E80 ≤ n && n ≤ 0xA4CF then 2
  else if 0xAC00 ≤ n && n ≤ 0xD7A3 then 2
  else if 0xF900 ≤ n && n ≤ 0xFAFF then 2
  else if 0xFE30 ≤ n && n ≤ 0xFE4F then 2
  else if 0xFF00 ≤ n && n ≤ 0xFF60 then 2
  else if 0xFFE0 ≤ n && n ≤ 0xFFE6 then 2
  else 1

/-- Width `UnicodeWidthStr::width`: display width of a string in columns. -/
def str_width (s : List Char) : Nat :=
  (s.map char_width).sum

/-- Method `Tab::width`: the display width of the visible name. -/
def Tab.width (t : Tab) : Int :=
  Int.ofNat (str_width t.visible_name)

/-- The character loop of `Tab::draw`: one `change_cell` per character at
consecutive `pos_x` values; the first occurrence of the switch character
gets the underline attribute.  Returns the cells written and the final
`pos_x`. -/
def draw_cells (style : Style) (switch : Option Char) :
    List Char → Bool → Int → Int → List Cell × Int
  | [], _, pos_x, _ => ([], pos_x)
  | ch :: rest, switch_drawn, pos_x, pos_y =>
    if switch == some ch && !switch_drawn then
      let r := draw_cells style switch rest true (pos_x + 1) pos_y
      (⟨pos_x, pos_y, ch, Nat.lor style.fg TB_UNDERLINE, style.bg⟩ :: r.1, r.2)
    else
      let r := draw_cells style switch rest switch_drawn (pos_x + 1) pos_y
      (⟨pos_x, pos_y, ch, style.fg, style.bg⟩ :: r.1, r.2)

/-- Method `Tab::draw`: pick the style (active tabs always use `tab_active`),
then paint the visible name. -/
def Tab.draw (t : Tab) (colors : Colors) (pos_x pos_y : Int)
    (active : Bool) : List Cell × Int :=
  let style := if active then colors.tab_active else tab_style t.style colors
  draw_cells style t.switch t.visible_name false pos_x pos_y

/-! ## Definitions following the spec's words, for comparison with the
code-derived definitions above -/

/-- The spec's reading of the `/msg` argument split: drop the first
whitespace-delimited token, then the whole whitespace run after it; what
remains is the message. -/
def after_first_ws_run (s : List Char) : List Char :=
  (s.dropWhile (fun c => !rustIsWhitespace c)).dropWhile rustIsWhitespace

/-- The spec's reading of the parsed argument tail: the substring of the
original line starting right after the first whitespace run that follows
the command name (the name itself may be preceded by whitespace). -/
def tail_after_first_ws_run (line : List Char) : List Char :=
  after_first_ws_run (line.dropWhile rustIsWhitespace)

/-- The column positions `x, x + 1, ..., x + n - 1`: one cell per
character, left to right. -/
def consecutive_cols (x : Int) : Nat → List Int
  | 0 => []
  | n + 1 => x :: consecutive_cols (x + 1) n

/-! ## Helper lemmas -/

/-- Composing two constant additions on indices. -/
theorem map_add_one_comp (m : Nat) :
    ((fun i => i + m) ∘ fun i => i + 1) = fun i : Nat => i + (m + 1) := by
  funext i; simp; omega

/-- Shifting the running index of `swi_aux` shifts every emitted index. -/
theorem swi_shift (s : List Char) : ∀ (b : Bool) (n : Nat),
    swi_aux n b s = (swi_aux 0 b s).map (fun i => i + n) := by
  induction s with
  | nil => intro b n; simp [swi_aux]
  | cons c cs ih =>
    intro b n
    by_cases hc : rustIsWhitespace c
    · simp only [swi_aux, hc, if_true]
      rw [ih true (n + 1), ih true 1, List.map_map, map_add_one_comp]
    · cases b with
      | true =>
        simp only [swi_aux, hc, Bool.false_eq_true, if_false, if_true,
          List.map_cons]
        rw [ih false (n + 1), ih false 1, List.map_map, map_add_one_comp]
        simp
      | false =>
        simp only [swi_aux, hc, Bool.false_eq_true, if_false]
        rw [ih false (n + 1), ih false 1, List.map_map, map_add_one_comp]

/-- Indexing a cons cell by a shifted index list drops the head. -/
theorem drop_at_head_shift (c : Char) (cs : List Char) (l : List Nat) :
    drop_at_head (c :: cs) (l.map (fun i => i + 1)) = drop_at_head cs l := by
  cases l with
  | nil => simp [drop_at_head]
  | cons i l2 => simp [drop_at_head]

/-- Slicing at the first token start skips the leading whitespace run. -/
theorem swi_true_drop (xs : List Char) :
    drop_at_head xs (swi_aux 0 true xs) = xs.dropWhile rustIsWhitespace := by
  induction xs with
  | nil => simp [swi_aux, drop_at_head]
  | cons c cs ih =>
    by_cases hc : rustIsWhitespace c
    · simp only [swi_aux, hc, if_true]
      rw [swi_shift cs true 1, drop_at_head_shift, ih]
      simp [List.dropWhile_cons, hc]
    · simp only [swi_aux, hc, Bool.false_eq_true, if_false, if_true]
      simp [drop_at_head, List.dropWhile_cons, hc]

/-- Mid-token: slicing at the next token start skips the rest of the
current token and the whitespace run after it. -/
theorem swi_false_drop (xs : List Char) :
    drop_at_head xs (swi_aux 0 false xs) =
      (xs.dropWhile (fun c => !rustIsWhitespace c)).dropWhile rustIsWhitespace := by
  induction xs with
  | nil => simp [swi_aux, drop_at_head]
  | cons c cs ih =>
    by_cases hc : rustIsWhitespace c
    · simp only [swi_aux, hc, if_true]
      rw [swi_shift cs true 1, drop_at_head_shift, swi_true_drop]
      simp [List.dropWhile_cons, hc]
    · simp only [swi_aux, hc, Bool.false_eq_true, if_false]
      rw [swi_shift cs false 1, drop_at_head_shift, ih]
      simp [List.dropWhile_cons, hc]

/-- The tail computed by `parse_cmd` from the whitespace-index boundaries
is exactly the suffix after the first whitespace run that follows the
command name. -/
theorem parse_cmd_rest_eq (line : List Char) :
    parse_cmd_rest line = tail_after_first_ws_run line := by
  unfold parse_cmd_rest tail_after_first_ws_run after_first_ws_run
    split_whitespace_indices
  induction line with
  | nil => simp [swi_aux, drop_at_head]
  | cons c cs ih =>
    by_cases hc : rustIsWhitespace c
    · simp only [swi_aux, hc, if_true]
      rw [swi_shift cs true 1, ← List.map_drop, drop_at_head_shift, ih]
      simp [List.dropWhile_cons, hc]
    · simp only [swi_aux, hc, Bool.false_eq_true, if_false, if_true]
      rw [List.drop_one, List.tail_cons]
      rw [swi_shift cs false 1, drop_at_head_shift, swi_false_drop]
      simp [List.dropWhile_cons, hc]

/-- Byte length of a cons cell. -/
theorem utf8Len_cons (c : Char) (cs : List Char) :
    utf8Len (c :: cs) = c.utf8Size + utf8Len cs := by
  simp [utf8Len]

/-- Byte length of an append. -/
theorem utf8Len_append (xs ys : List Char) :
    utf8Len (xs ++ ys) = utf8Len xs + utf8Len ys := by
  simp [utf8Len]

/-- Slicing a concatenation up to the byte length of its first part
yields the first part. -/
theorem sliceToByte_append (xs ys : List Char) :
    sliceToByte (xs ++ ys) (utf8Len xs) = some xs := by
  induction xs with
  | nil =>
    show sliceToByte ys (utf8Len []) = some []
    unfold sliceToByte
    simp [utf8Len]
  | cons x xs2 ih =>
    have hpos := Char.utf8Size_pos x
    rw [utf8Len_cons]
    unfold sliceToByte
    rw [if_neg (by omega)]
    simp only [List.cons_append]
    rw [if_pos (by omega)]
    have h1 : x.utf8Size + utf8Len xs2 - x.utf8Size = utf8Len xs2 := by omega
    rw [h1, ih]
    rfl

/-- Slicing a concatenation from the byte length of its first part
yields the second part. -/
theorem sliceFromByte_append (xs ys : List Char) :
    sliceFromByte (xs ++ ys) (utf8Len xs) = some ys := by
  induction xs with
  | nil =>
    show sliceFromByte ys (utf8Len []) = some ys
    unfold sliceFromByte
    simp [utf8Len]
  | cons x xs2 ih =>
    have hpos := Char.utf8Size_pos x
    rw [utf8Len_cons]
    unfold sliceFromByte
    rw [if_neg (by omega)]
    simp only [List.cons_append]
    rw [if_pos (by omega)]
    have h1 : x.utf8Size + utf8Len xs2 - x.utf8Size = utf8Len xs2 := by omega
    rw [h1, ih]

/-- The `split_msg_args` loop splits at the first whitespace character
when that character occupies a single byte, keeping everything after it
(including further whitespace) in the message part. -/
theorem split_loop_found (c : Char) (post : List Char)
    (hc : rustIsWhitespace c = true) (hsz : c.utf8Size = 1) :
    ∀ (pre2 pre1 : List Char), (∀ x ∈ pre2, rustIsWhitespace x = false) →
      split_msg_args_loop (pre1 ++ (pre2 ++ c :: post))
          (charIndicesFrom (utf8Len pre1) (pre2 ++ c :: post)) =
        .ok (some (pre1 ++ pre2, post)) := by
  intro pre2
  induction pre2 with
  | nil =>
    intro pre1 _
    simp only [List.nil_append, List.append_nil]
    unfold charIndicesFrom
    unfold split_msg_args_loop
    rw [if_pos hc]
    rw [sliceToByte_append pre1 (c :: post)]
    have h2 : utf8Len pre1 + 1 = utf8Len (pre1 ++ [c]) := by
      rw [utf8Len_append]; simp [utf8Len, hsz]
    have h3 : pre1 ++ c :: post = (pre1 ++ [c]) ++ post := by simp
    rw [h2, h3, sliceFromByte_append]
  | cons x xs ih =>
    intro pre1 hpre
    have hx : rustIsWhitespace x = false := hpre x (by simp)
    simp only [List.cons_append]
    unfold charIndicesFrom
    unfold split_msg_args_loop
    rw [hx]
    simp only [Bool.false_eq_true, if_false]
    have h1 : pre1 ++ x :: (xs ++ c :: post) =
        (pre1 ++ [x]) ++ (xs ++ c :: post) := by simp
    have h2 : utf8Len pre1 + x.utf8Size = utf8Len (pre1 ++ [x]) := by
      rw [utf8Len_append]; simp [utf8Len]
    rw [h1, h2, ih (pre1 ++ [x]) (fun y hy => hpre y (by simp [hy]))]
    simp

/-- A client found by `find_client` carries the server name it was looked
up under. -/
theorem find_client_serv_name (serv : List Char) :
    ∀ (clients : List Client) (client : Client),
      find_client clients serv = some client → client.serv_name = serv := by
  intro clients
  induction clients with
  | nil =>
    intro client h
    simp [find_client, find_client_idx] at h
  | cons hd tl ih =>
    intro client h
    by_cases hm : hd.serv_name = serv
    · unfold find_client find_client_idx at h
      rw [if_pos hm] at h
      simp at h
      rw [← h]
      exact hm
    · unfold find_client find_client_idx at h
      rw [if_neg hm] at h
      cases hidx : find_client_idx tl serv with
      | none => rw [hidx] at h; simp at h
      | some i =>
        rw [hidx] at h
        simp at h
        apply ih
        unfold find_client
        rw [hidx]
        simpa using h

/-- The cells written by the `Tab::draw` loop sit at consecutive columns
and the cursor ends one past the last character, independent of the
switch-underline state. -/
theorem draw_cells_offsets (st : Style) (sw : Option Char) :
    ∀ (cs : List Char) (sd : Bool) (x y : Int),
      (draw_cells st sw cs sd x y).2 = x + cs.length ∧
      (draw_cells st sw cs sd x y).1.map Cell.x = consecutive_cols x cs.length := by
  intro cs
  induction cs with
  | nil =>
    intro sd x y
    unfold draw_cells
    simp [consecutive_cols]
  | cons ch rest ih =>
    intro sd x y
    unfold draw_cells
    by_cases hb : (sw == some ch && !sd) = true
    · rw [if_pos hb]
      constructor
      · show (draw_cells st sw rest true (x + 1) y).2 =
          x + ((ch :: rest).length : Nat)
        rw [(ih true (x + 1) y).1]
        simp only [List.length_cons]
        push_cast
        ring
      · simp only [List.map_cons, consecutive_cols, List.length_cons]
        rw [(ih true (x + 1) y).2]
    · rw [if_neg hb]
      constructor
      · show (draw_cells st sw rest sd (x + 1) y).2 =
          x + ((ch :: rest).length : Nat)
        rw [(ih sd (x + 1) y).1]
        simp only [List.length_cons]
        push_cast
        ring
      · simp only [List.map_cons, consecutive_cols, List.length_cons]
        rw [(ih sd (x + 1) y).2]

/-- When every character is one column wide, the display width is the
character count. -/
theorem str_width_all_one :
    ∀ (s : List Char), (∀ c ∈ s, char_width c = 1) → str_width s = s.length := by
  intro s
  induction s with
  | nil => intro _; rfl
  | cons c cs ih =>
    intro h
    have hc : char_width c = 1 := h c (by simp)
    have hcs := ih (fun x hx => h x (by simp [hx]))
    simp [str_width] at hcs ⊢
    omega

/-! ## Claim theorems -/

/-- Claim C1, counterexample: the claim says an unknown command name
yields a "not found" result distinct from the result for empty input, and
that the router's message quotes only the command-name token.  In the
code `parse_cmd` returns `none` in both situations — the very same value
— and the router interpolates the entire raw line, so for the line
`xyz abc` it reports `Unsupported command: "/xyz abc"`, not the claimed
`Unsupported command: "/xyz"`. -/
theorem unknown_cmd_counterexample :
    parse_cmd "xyz abc".data = none ∧
    parse_cmd "".data = none ∧
    runCmd (fun _ _ _ _ clients => .ok ([], clients)) "xyz abc".data
        ⟨false, [], [], []⟩ (.Serv "s".data) [] =
      .ok ([.addClientErrMsg "Unsupported command: \"/xyz abc\"".data
              .CurrentTab], []) ∧
    "Unsupported command: \"/xyz abc\"".data ≠
      "Unsupported command: \"/xyz\"".data :=
  ⟨by decide, by decide, rfl, by decide⟩

/-- Claim C1, amended: for every raw line whose first
whitespace-delimited token (if any) is not the name of a registered
command — including empty and whitespace-only lines — `parse_cmd`
returns `none`, and the router reports
`Unsupported command: "/<line>"` (interpolating the whole raw line, not
just the name token) to the current tab, regardless of the dispatch
function, the defaults, the source and the connection set. -/
theorem unknown_cmd_amended :
    ∀ (dispatch : Cmd → List Char → Defaults → MsgSource → List Client → CmdOut)
      (line : List Char) (defaults : Defaults) (src : MsgSource)
      (clients : List Client),
      (∀ c ∈ CMDS, (split_whitespace line).take 1 ≠ [c.name]) →
      parse_cmd line = none ∧
      runCmd dispatch line defaults src clients =
        .ok ([.addClientErrMsg
                ("Unsupported command: \"/".data ++ line ++ "\"".data)
                .CurrentTab], clients) := by
  intro dispatch line defaults src clients h
  have hp : parse_cmd line = none := by
    unfold parse_cmd
    cases hsw : split_whitespace line with
    | nil => rfl
    | cons t ts =>
      dsimp only
      have hfind : CMDS.find? (fun c => c.name == t) = none := by
        rw [List.find?_eq_none]
        intro c hc
        have h2 := h c hc
        rw [hsw] at h2
        simp at h2
        simp
        exact Ne.symm h2
      rw [hfind]
      rfl
  refine ⟨hp, ?_⟩
  unfold runCmd
  rw [hp]

/-- Claim C1 witness: the amended theorem applied to the unregistered
line `xyz`. -/
theorem unknown_cmd_amended_witness :
    parse_cmd "xyz".data = none ∧
    runCmd (fun _ _ _ _ clients => .ok ([], clients)) "xyz".data
        ⟨false, [], [], []⟩ (.Serv "s".data) [] =
      .ok ([.addClientErrMsg
              ("Unsupported command: \"/".data ++ "xyz".data ++ "\"".data)
              .CurrentTab], []) :=
  unknown_cmd_amended (fun _ _ _ _ clients => .ok ([], clients)) "xyz".data
    ⟨false, [], [], []⟩ (.Serv "s".data) [] (by decide)

/-- Claim C2, counterexample: the claim says the message is the remainder
after the first whitespace RUN following the target token.  On
`foo  bar` (two spaces) the code returns the message ` bar` — everything
after the first whitespace CHARACTER — while the remainder after the
whitespace run is `bar`. -/
theorem msg_split_run_counterexample :
    split_msg_args "foo  bar".data = .ok (some ("foo".data, " bar".data)) ∧
    after_first_ws_run "foo  bar".data = "bar".data ∧
    " bar".data ≠ "bar".data :=
  ⟨rfl, by decide, by decide⟩

/-- Claim C2, amended: for a `/msg` argument string the target is the
first whitespace-delimited token (its first character must be a valid
nick-first character) and the message is the remainder after the first
whitespace character following that token — a single character, not a
whitespace run (and when that separator character is wider than one
byte the function panics instead, see C9).  A malformed target (no
split) or an empty message causes a usage error carrying `/msg`'s usage
string, and no message is sent. -/
theorem msg_split_amended :
    (∀ (args : List Char) (src : MsgSource) (clients : List Client),
      split_msg_args args = .ok none →
      msg args src clients =
        .ok ([.addClientErrMsg ("Usage: ".data ++ MSG_CMD.usage) .CurrentTab],
             clients)) ∧
    (∀ (args target : List Char) (src : MsgSource) (clients : List Client),
      split_msg_args args = .ok (some (target, [])) →
      msg args src clients =
        .ok ([.addClientErrMsg ("Usage: ".data ++ MSG_CMD.usage) .CurrentTab],
             clients)) ∧
    (∀ (p : Char) (pre : List Char) (c : Char) (post : List Char),
      is_nick_first_char p = true →
      (∀ x ∈ p :: pre, rustIsWhitespace x = false) →
      rustIsWhitespace c = true → c.utf8Size = 1 →
      split_msg_args ((p :: pre) ++ c :: post) = .ok (some (p :: pre, post))) := by
  refine ⟨?_, ?_, ?_⟩
  · intro args src clients h
    unfold msg
    rw [h]
  · intro args target src clients h
    unfold msg
    rw [h]
    simp
  · intro p pre c post hp hpre hc hsz
    unfold split_msg_args
    simp only [List.cons_append]
    unfold charIndicesFrom
    dsimp only
    rw [hp]
    simp only [if_true]
    have h1 : p :: (pre ++ c :: post) = [p] ++ (pre ++ c :: post) := rfl
    have h2 : 0 + p.utf8Size = utf8Len [p] := by simp [utf8Len]
    rw [h1, h2, split_loop_found c post hc hsz pre [p]
      (fun y hy => hpre y (by simp [hy]))]
    rfl

/-- Claim C2 witness: the amended split theorem applied to `foo bar`. -/
theorem msg_split_amended_witness :
    split_msg_args "foo bar".data = .ok (some ("foo".data, "bar".data)) :=
  msg_split_amended.2.2 'f' "oo".data ' ' "bar".data (by decide) (by decide)
    (by decide) (by decide)

/-- Claim C3: `/close` on the reserved pseudo-server tab `mentions` does
nothing; on another Server tab it closes the server tab, removes the
matching connection from the set and issues a disconnect carrying the
argument tail as reason when non-empty; on a Channel tab it closes the
channel tab and parts the channel (reason likewise) while the connection
set is left unchanged; on a User tab it only closes the tab, with no
network effect. -/
theorem close_by_source_kind :
    (∀ (args : List Char) (clients : List Client),
      close args (.Serv "mentions".data) clients = .ok ([], clients)) ∧
    (∀ (args serv : List Char) (clients : List Client) (idx : Nat),
      serv ≠ "mentions".data → find_client_idx clients serv = some idx →
      close args (.Serv serv) clients =
        .ok ([.closeServerTab serv,
              .clientQuit serv (if args.isEmpty then none else some args)],
             clients.eraseIdx idx)) ∧
    (∀ (args serv chan : List Char) (clients : List Client) (idx : Nat),
      find_client_idx clients serv = some idx →
      close args (.Chan serv chan) clients =
        .ok ([.closeChanTab serv chan,
              .clientPart serv chan (if args.isEmpty then none else some args)],
             clients)) ∧
    (∀ (args serv nick2 : List Char) (clients : List Client),
      close args (.User serv nick2) clients =
        .ok ([.closeUserTab serv nick2], clients)) := by
  refine ⟨?_, ?_, ?_, ?_⟩
  · intro args clients
    unfold close
    dsimp only
    rw [if_pos rfl]
  · intro args serv clients idx hne hidx
    unfold close
    dsimp only
    rw [if_neg hne, hidx]
  · intro args serv chan clients idx hidx
    unfold close
    dsimp only
    rw [hidx]
  · intro args serv nick2 clients
    rfl

/-- Claim C3 witness: `/close bye` on the server tab of the only
connection closes the tab, removes the connection and quits with reason
`bye`. -/
theorem close_by_source_kind_witness :
    close "bye".data (.Serv "irc.example.org".data)
        [{ serv_name := "irc.example.org".data, chan_nicks := [] }] =
      .ok ([.closeServerTab "irc.example.org".data,
            .clientQuit "irc.example.org".data
              (if ("bye".data).isEmpty then none else some "bye".data)],
           ([{ serv_name := "irc.example.org".data,
               chan_nicks := [] }] : List Client).eraseIdx 0) :=
  close_by_source_kind.2.1 "bye".data "irc.example.org".data
    [{ serv_name := "irc.example.org".data, chan_nicks := [] }] 0
    (by decide) (by decide)

/-- Claim C4: whenever `parse_cmd` produces an invocation, its argument
tail is exactly the suffix of the original line starting right after the
first whitespace run that follows the command name (so every original
character of the tail, internal spacing included, is preserved verbatim,
and the tail is empty when no whitespace follows the name); in
particular `msg NickServ identify notMyPassword` parses to the `msg`
command with tail `NickServ identify notMyPassword`. -/
theorem parse_cmd_tail_verbatim :
    (∀ (line : List Char) (c : Cmd) (args : List Char),
      parse_cmd line = some (c, args) →
      args = tail_after_first_ws_run line ∧ args <:+ line) ∧
    parse_cmd "msg NickServ identify notMyPassword".data =
      some (MSG_CMD, "NickServ identify notMyPassword".data) := by
  constructor
  · intro line c args h
    have hargs : args = parse_cmd_rest line := by
      unfold parse_cmd at h
      cases hsw : split_whitespace line with
      | nil => rw [hsw] at h; simp at h
      | cons t ts =>
        rw [hsw] at h
        dsimp only at h
        cases hf : CMDS.find? (fun cd => cd.name == t) with
        | none => rw [hf] at h; simp at h
        | some cd => rw [hf] at h; simp at h; exact h.2.symm
    constructor
    · rw [hargs, parse_cmd_rest_eq]
    · rw [hargs, parse_cmd_rest_eq]
      unfold tail_after_first_ws_run after_first_ws_run
      exact ((List.dropWhile_suffix _).trans ((List.dropWhile_suffix _).trans
        (List.dropWhile_suffix _)))
  · decide

/-- Claim C4 witness: the tail theorem applied to `join #foo`. -/
theorem parse_cmd_tail_witness :
    "#foo".data = tail_after_first_ws_run "join #foo".data ∧
      "#foo".data <:+ "join #foo".data :=
  parse_cmd_tail_verbatim.1 "join #foo".data JOIN_CMD "#foo".data (by decide)

/-- Claim C5: after a successful `/msg` argument split with a non-empty
message, the message is routed with a Server source when the target
equals the server name of some connection in the set, and otherwise with
a User source on the current source's server under the target nick —
whatever the kind of the current source. -/
theorem msg_target_routing :
    (∀ (args : List Char) (src : MsgSource) (clients : List Client)
        (target m : List Char),
      split_msg_args args = .ok (some (target, m)) → m ≠ [] →
      (∃ c ∈ clients, c.serv_name = target) →
      msg args src clients =
        .ok ([.sendMsg (.Serv target) m false], clients)) ∧
    (∀ (args : List Char) (src : MsgSource) (clients : List Client)
        (target m : List Char),
      split_msg_args args = .ok (some (target, m)) → m ≠ [] →
      (∀ c ∈ clients, c.serv_name ≠ target) →
      msg args src clients =
        .ok ([.sendMsg (.User src.serv_name target) m false], clients)) := by
  constructor
  · intro args src clients target m h hm hex
    have hany : (clients.any fun client => client.serv_name == target) = true := by
      rw [List.any_eq_true]
      obtain ⟨c, hc, he⟩ := hex
      exact ⟨c, hc, beq_iff_eq.mpr he⟩
    have hie : m.isEmpty = false := by
      cases m with
      | nil => exact absurd rfl hm
      | cons a as => rfl
    unfold msg
    rw [h]
    dsimp only
    rw [hie, hany]
    exact rfl
  · intro args src clients target m h hm hall
    have hany : (clients.any fun client => client.serv_name == target) = false := by
      rw [List.any_eq_false]
      intro c hc
      simp only [beq_iff_eq]
      exact hall c hc
    have hie : m.isEmpty = false := by
      cases m with
      | nil => exact absurd rfl hm
      | cons a as => rfl
    unfold msg
    rw [h]
    dsimp only
    rw [hie, hany]
    exact rfl

/-- Claim C5 witness: `/msg srv hello` from a Channel tab on another
server routes to the Server source of the connection named `srv`. -/
theorem msg_target_routing_witness :
    msg "srv hello".data (.Chan "other".data "#c".data)
        [{ serv_name := "srv".data, chan_nicks := [] }] =
      .ok ([.sendMsg (.Serv "srv".data) "hello".data false],
           [{ serv_name := "srv".data, chan_nicks := [] }]) :=
  msg_target_routing.1 "srv hello".data (.Chan "other".data "#c".data)
    [{ serv_name := "srv".data, chan_nicks := [] }] "srv".data "hello".data
    rfl (by decide)
    ⟨{ serv_name := "srv".data, chan_nicks := [] }, by simp, rfl⟩

/-- Claim C6: `/connect <host>:<port>` when a connection with server name
`<host>` already exists posts an informational `Connecting...` to all
tabs of that server and tells the existing connection to reconnect on
the new port; no server tab is opened, no client is created and the
connection set is unchanged. -/
theorem connect_existing_reconnects :
    ∀ (serv_addr : List Char) (pass : Option (List Char)) (defaults : Defaults)
      (clients : List Client) (host portStr : List Char) (port : Nat)
      (client : Client),
      split_port serv_addr = some (host, portStr) →
      parse_u16 portStr = .ok port →
      find_client clients host = some client →
      connect_ serv_addr pass defaults clients =
        .ok ([.addClientMsg "Connecting...".data (.AllServTabs host),
              .clientReconnect host (some port)], clients) := by
  intro serv_addr pass defaults clients host portStr port client h1 h2 h3
  unfold connect_
  rw [h1]
  dsimp only
  rw [h2]
  dsimp only
  rw [h3]
  dsimp only
  rw [find_client_serv_name host clients client h3]

/-- Claim C6 witness: `/connect irc.example.org:6667` with an existing
connection for that host reconnects it on port 6667. -/
theorem connect_existing_witness :
    connect_ "irc.example.org:6667".data none ⟨false, [], [], []⟩
        [{ serv_name := "irc.example.org".data, chan_nicks := [] }] =
      .ok ([.addClientMsg "Connecting...".data
              (.AllServTabs "irc.example.org".data),
            .clientReconnect "irc.example.org".data (some 6667)],
           [{ serv_name := "irc.example.org".data, chan_nicks := [] }]) :=
  connect_existing_reconnects "irc.example.org:6667".data none
    ⟨false, [], [], []⟩
    [{ serv_name := "irc.example.org".data, chan_nicks := [] }]
    "irc.example.org".data "6667".data 6667
    { serv_name := "irc.example.org".data, chan_nicks := [] } rfl rfl rfl

/-- Claim C7: the five specified evaluations of `split_msg_args` —
no whitespace gives no split, a channel-prefixed first character gives no
split, and commas are never separators (only whitespace is). -/
theorem split_msg_args_cases :
    split_msg_args "foo,bar".data = .ok none ∧
    split_msg_args "#blah blah".data = .ok none ∧
    split_msg_args "foo bar".data = .ok (some ("foo".data, "bar".data)) ∧
    split_msg_args "foo, bar".data = .ok (some ("foo,".data, "bar".data)) ∧
    split_msg_args "foo ,bar".data = .ok (some ("foo".data, ",bar".data)) :=
  ⟨rfl, rfl, rfl, rfl, rfl⟩

/-- Claim C8, counterexample: the claim says the drawing offset advances
by each character's rendered column width, matching `Tab::width`.  For a
one-character label consisting of the two-column-wide CJK character with
code point 0x4F60 the draw loop advances the offset by 1 (one per
character) while `Tab::width` reports 2. -/
theorem tab_draw_width_counterexample :
    ¬ ((Tab.draw ⟨[Char.ofNat 0x4F60], .Serv "s".data, .Normal, none⟩
          ⟨⟨0, 0⟩, ⟨0, 0⟩, ⟨0, 0⟩, ⟨0, 0⟩, ⟨0, 0⟩⟩ 0 0 false).2 =
        0 + Tab.width ⟨[Char.ofNat 0x4F60], .Serv "s".data, .Normal, none⟩) := by
  decide

/-- Claim C8, amended: `Tab::draw` paints the label's characters left to
right, one cell per character at consecutive column offsets, and the
offset advances by the number of characters of the label; this equals
the display width that `Tab::width` reports exactly when every character
of the label is one column wide (for wider characters the two
disagree). -/
theorem tab_draw_advances_per_char :
    ∀ (t : Tab) (colors : Colors) (x y : Int) (active : Bool),
      (t.draw colors x y active).1.map Cell.x =
        consecutive_cols x t.visible_name.length ∧
      (t.draw colors x y active).2 = x + t.visible_name.length ∧
      ((∀ c ∈ t.visible_name, char_width c = 1) →
        (t.draw colors x y active).2 = x + t.width) := by
  intro t colors x y active
  unfold Tab.draw
  refine ⟨(draw_cells_offsets _ _ _ _ _ _).2, (draw_cells_offsets _ _ _ _ _ _).1,
    ?_⟩
  intro h
  rw [(draw_cells_offsets _ _ _ _ _ _).1]
  unfold Tab.width
  rw [str_width_all_one t.visible_name h]
  simp

/-- Claim C8 witness: the amended theorem applied to the two-character
ASCII label `ab` drawn at column 5. -/
theorem tab_draw_advances_witness :
    (Tab.draw ⟨"ab".data, .Serv "s".data, .Normal, none⟩
        ⟨⟨0, 0⟩, ⟨0, 0⟩, ⟨0, 0⟩, ⟨0, 0⟩, ⟨0, 0⟩⟩ 5 1 false).2 =
      5 + Tab.width ⟨"ab".data, .Serv "s".data, .Normal, none⟩ :=
  (tab_draw_advances_per_char ⟨"ab".data, .Serv "s".data, .Normal, none⟩
    ⟨⟨0, 0⟩, ⟨0, 0⟩, ⟨0, 0⟩, ⟨0, 0⟩, ⟨0, 0⟩⟩ 5 1 false).2.2 (by decide)

/-- Claim C9: the code slices the `/msg` argument string at byte index
`i + 1` where `i` is the byte index of the first whitespace character;
when that whitespace character occupies two bytes (here the no-break
space, code point 160, which satisfies Rust's `char::is_whitespace`),
the index `i + 1` falls inside the character and the slice panics, so
the function does NOT return for every UTF-8 input as claimed. -/
theorem split_msg_args_panic_nbsp :
    split_msg_args ('a' :: Char.ofNat 160 :: ['b']) = .error () := rfl

/-- Claim C10: `/names` looks up the connection for the current source's
server before inspecting the source kind: with no matching connection it
silently does nothing for every source kind, and the explicit
`/names only supported in chan tabs` error is reported only when a
matching connection exists and the source is not a Channel. -/
theorem names_lookup_before_kind :
    (∀ (args : List Char) (src : MsgSource) (clients : List Client),
      find_client clients src.serv_name = none →
      names args src clients = .ok ([], clients)) ∧
    (∀ (args serv : List Char) (clients : List Client) (client : Client),
      find_client clients serv = some client →
      names args (.Serv serv) clients =
        .ok ([.addClientErrMsg "/names only supported in chan tabs".data
                .CurrentTab], clients)) ∧
    (∀ (args serv nick2 : List Char) (clients : List Client) (client : Client),
      find_client clients serv = some client →
      names args (.User serv nick2) clients =
        .ok ([.addClientErrMsg "/names only supported in chan tabs".data
                .CurrentTab], clients)) := by
  refine ⟨?_, ?_, ?_⟩
  · intro args src clients h
    unfold names
    rw [h]
  · intro args serv clients client h
    unfold names
    rw [show (MsgSource.Serv serv).serv_name = serv from rfl, h]
  · intro args serv nick2 clients client h
    unfold names
    rw [show (MsgSource.User serv nick2).serv_name = serv from rfl, h]

/-- Claim C10 witness: `/names` from a Server tab with an empty
connection set silently does nothing. -/
theorem names_lookup_witness :
    names "".data (.Serv "srv".data) [] = .ok ([], []) :=
  names_lookup_before_kind.1 "".data (.Serv "srv".data) [] rfl

end Tiny
